import Mathlib

set_option maxHeartbeats 1000000

namespace LuggageLink

/-! ## Insertion-ordered key-value maps, modelling JavaScript `Map` objects.

JavaScript `Map` iterates entries in insertion order; `set` on an existing key
updates the value in place, otherwise it appends a fresh entry at the end. -/

abbrev EMap (V : Type) : Type := List (Nat × V)

namespace EMap

def get {V : Type} (m : EMap V) (k : Nat) : Option V :=
  (m.find? (fun p => p.1 == k)).map Prod.snd

def set {V : Type} (m : EMap V) (k : Nat) (v : V) : EMap V :=
  if m.any (fun p => p.1 == k) then m.map (fun p => if p.1 == k then (k, v) else p)
  else m ++ [(k, v)]

def values {V : Type} (m : EMap V) : List V := m.map Prod.snd

theorem find?_map_of_any {V : Type} (m : EMap V) (k : Nat) (v : V)
    (h : m.any (fun p => p.1 == k) = true) :
    (m.map (fun p => if p.1 == k then (k, v) else p)).find? (fun p => p.1 == k) = some (k, v) := by
  induction m with
  | nil => simp at h
  | cons p t ih =>
    by_cases hp : p.1 = k
    · rw [List.map_cons, if_pos (by simp [hp])]
      rw [List.find?_cons_of_pos _ (by simp)]
    · have ht : t.any (fun p => p.1 == k) = true := by
        have hp' : (p.1 == k) = false := by simp [hp]
        simpa [List.any_cons, hp'] using h
      rw [List.map_cons, if_neg (by simp [hp])]
      rw [List.find?_cons_of_neg _ (by simp [hp])]
      exact ih ht

theorem get_set_self {V : Type} (m : EMap V) (k : Nat) (v : V) :
    get (set m k v) k = some v := by
  unfold get set
  by_cases h : m.any (fun p => p.1 == k) = true
  · rw [if_pos h, find?_map_of_any m k v h]
    rfl
  · rw [if_neg h]
    have hnone : m.find? (fun p => p.1 == k) = none := by
      rw [List.find?_eq_none]
      intro p hp
      intro hk
      exact h (List.any_eq_true.mpr ⟨p, hp, hk⟩)
    rw [List.find?_append, hnone]
    simp [List.find?]

theorem get_eq_none {V : Type} (m : EMap V) (k : Nat) (h : ∀ p ∈ m, p.1 ≠ k) :
    get m k = none := by
  unfold get
  have : m.find? (fun p => p.1 == k) = none := by
    rw [List.find?_eq_none]
    intro p hp hk
    exact h p hp (by simpa using hk)
  rw [this]
  rfl

theorem get_mem {V : Type} {m : EMap V} {k : Nat} {v : V} (h : get m k = some v) :
    (k, v) ∈ m := by
  unfold get at h
  cases hf : m.find? (fun p => p.1 == k) with
  | none => rw [hf] at h; simp at h
  | some q =>
    rw [hf] at h
    have hq : q ∈ m := List.mem_of_find?_eq_some hf
    have hk : q.1 = k := by simpa using List.find?_some hf
    have hv : q.2 = v := by simpa using h
    have hqe : q = (k, v) := by
      cases q with
      | mk a b =>
        simp only at hk hv
        rw [hk, hv]
    rwa [← hqe]

theorem mem_of_mem_set {V : Type} {m : EMap V} {k : Nat} {v : V} {q : Nat × V}
    (h : q ∈ set m k v) : q = (k, v) ∨ q ∈ m := by
  unfold set at h
  by_cases ha : m.any (fun p => p.1 == k) = true
  · rw [if_pos ha] at h
    rcases List.mem_map.mp h with ⟨p, hp, he⟩
    by_cases hk : p.1 = k
    · left
      rw [if_pos (by simp [hk])] at he
      exact he.symm
    · right
      rw [if_neg (by simp [hk])] at he
      rwa [← he]
  · rw [if_neg ha] at h
    rcases List.mem_append.mp h with h1 | h2
    · right; exact h1
    · left; simpa using h2

theorem set_eq_append {V : Type} {m : EMap V} {k : Nat} {v : V}
    (h : ∀ p ∈ m, p.1 ≠ k) : set m k v = m ++ [(k, v)] := by
  unfold set
  have : m.any (fun p => p.1 == k) = false := by
    rw [List.any_eq_false]
    intro p hp
    simpa using h p hp
  rw [this]
  simp

end EMap

/-! ## Entity records, translated from the drizzle schema in `shared/schema.ts`.

Timestamps are modelled as naturals (milliseconds since epoch); SQL `real`
columns as rationals; nullable columns as `Option`. -/

structure VerificationStatus where
  idVerified : Bool
  phoneVerified : Bool
  addressVerified : Bool
deriving DecidableEq

structure User where
  id : Nat
  password : String
  email : String
  firstName : String
  lastName : String
  profileImage : Option String
  isVerified : Bool
  verificationStatus : VerificationStatus
  createdAt : Nat
  rating : ℚ
  reviewCount : Nat
deriving DecidableEq

structure Trip where
  id : Nat
  userId : Nat
  departureAirport : String
  destinationCity : String
  departureDate : Nat
  arrivalDate : Nat
  airline : Option String
  flightNumber : Option String
  availableWeight : ℚ
  pricePerKg : ℚ
  notes : Option String
  isActive : Bool
  createdAt : Nat
deriving DecidableEq

structure Dimensions where
  length : ℚ
  width : ℚ
  height : ℚ
deriving DecidableEq

structure Package where
  id : Nat
  userId : Nat
  senderCity : String
  receiverCity : String
  packageType : String
  weight : ℚ
  dimensions : Option Dimensions
  deliveryDeadline : Option Nat
  offeredPayment : ℚ
  description : Option String
  status : String
  isActive : Bool
  createdAt : Nat
deriving DecidableEq

structure Delivery where
  id : Nat
  tripId : Nat
  packageId : Nat
  travelerId : Nat
  senderId : Nat
  status : String
  paymentStatus : String
  createdAt : Nat
  updatedAt : Nat
deriving DecidableEq

structure Message where
  id : Nat
  senderId : Nat
  receiverId : Nat
  content : String
  isRead : Bool
  createdAt : Nat
deriving DecidableEq

structure Review where
  id : Nat
  reviewerId : Nat
  revieweeId : Nat
  deliveryId : Option Nat
  rating : Int
  comment : Option String
  createdAt : Nat
deriving DecidableEq

/-- The `MemStorage` backing state: one insertion-ordered map and one
monotonically increasing id counter per entity kind. -/
structure Store where
  users : EMap User
  trips : EMap Trip
  packages : EMap Package
  deliveries : EMap Delivery
  messages : EMap Message
  reviews : EMap Review
  userId : Nat
  tripId : Nat
  packageId : Nat
  deliveryId : Nat
  messageId : Nat
  reviewId : Nat
deriving DecidableEq

def emptyStore : Store :=
  { users := [], trips := [], packages := [], deliveries := [], messages := [], reviews := []
    userId := 1, tripId := 1, packageId := 1, deliveryId := 1, messageId := 1, reviewId := 1 }

/-! ## String helpers.

`lowerStr` models JavaScript `toLowerCase()` followed by viewing the string as
a character list; `includesL needle hay` models `hay.includes(needle)`;
`startsW needle hay` is the prefix test it is built from; `likeMatch` models
the PostgreSQL `LIKE` operator applied to a whole string, with the wildcard
characters percent and underscore and the default backslash escape. -/

def lowerStr (s : String) : List Char := s.data.map Char.toLower

def startsW : List Char → List Char → Bool
  | [], _ => true
  | _ :: _, [] => false
  | c :: n, d :: h => c == d && startsW n h

def includesL (needle : List Char) : List Char → Bool
  | [] => startsW needle []
  | d :: t => startsW needle (d :: t) || includesL needle t

/-- `likeStar f s` holds when `f` accepts some suffix of `s`: the semantics of
a leading `%` wildcard, which may swallow any prefix of the string. -/
def likeStar (f : List Char → Bool) : List Char → Bool
  | [] => f []
  | d :: t => f (d :: t) || likeStar f t

def likeMatch : List Char → List Char → Bool
  | [], s => s.isEmpty
  | '%' :: p, s => likeStar (likeMatch p) s
  | '_' :: p, s =>
    match s with
    | [] => false
    | _ :: t => likeMatch p t
  | '\\' :: e :: p, s =>
    match s with
    | [] => false
    | d :: t => e == d && likeMatch p t
  | ['\\'], _ => false
  | c :: p, s =>
    match s with
    | [] => false
    | d :: t => c == d && likeMatch p t

/-- A character list free of the three characters that are special inside a
PostgreSQL `LIKE` pattern. -/
def CleanL (l : List Char) : Prop := ∀ c ∈ l, c ≠ '%' ∧ c ≠ '_' ∧ c ≠ '\\'

instance (l : List Char) : Decidable (CleanL l) := by
  unfold CleanL
  infer_instance

/-! ## Insert payloads, translated from the `createInsertSchema(...).omit(...)`
definitions in `shared/schema.ts`: each carries exactly the columns the
validated insert payload may supply. -/

structure InsertUser where
  password : String
  email : String
  firstName : String
  lastName : String
  profileImage : Option String
deriving DecidableEq

structure InsertTrip where
  departureAirport : String
  destinationCity : String
  departureDate : Nat
  arrivalDate : Nat
  airline : Option String
  flightNumber : Option String
  availableWeight : ℚ
  pricePerKg : ℚ
  notes : Option String
deriving DecidableEq

structure InsertPackage where
  senderCity : String
  receiverCity : String
  packageType : String
  weight : ℚ
  dimensions : Option Dimensions
  deliveryDeadline : Option Nat
  offeredPayment : ℚ
  description : Option String
deriving DecidableEq

structure InsertDelivery where
  tripId : Nat
  packageId : Nat
  travelerId : Nat
  senderId : Nat
deriving DecidableEq

structure InsertMessage where
  senderId : Nat
  receiverId : Nat
  content : String
deriving DecidableEq

structure InsertReview where
  reviewerId : Nat
  revieweeId : Nat
  deliveryId : Option Nat
  rating : Int
  comment : Option String
deriving DecidableEq

/-! ## Partial-update payloads (TypeScript `Partial<Trip>` / `Partial<Package>`
/ `Partial<User.verificationStatus>`): every field optional, merged over the
stored entity by object spread. -/

structure VerifPatch where
  idVerified : Option Bool
  phoneVerified : Option Bool
  addressVerified : Option Bool
deriving DecidableEq

structure TripPatch where
  id : Option Nat
  userId : Option Nat
  departureAirport : Option String
  destinationCity : Option String
  departureDate : Option Nat
  arrivalDate : Option Nat
  airline : Option (Option String)
  flightNumber : Option (Option String)
  availableWeight : Option ℚ
  pricePerKg : Option ℚ
  notes : Option (Option String)
  isActive : Option Bool
  createdAt : Option Nat
deriving DecidableEq

structure PackagePatch where
  id : Option Nat
  userId : Option Nat
  senderCity : Option String
  receiverCity : Option String
  packageType : Option String
  weight : Option ℚ
  dimensions : Option (Option Dimensions)
  deliveryDeadline : Option (Option Nat)
  offeredPayment : Option ℚ
  description : Option (Option String)
  status : Option String
  isActive : Option Bool
  createdAt : Option Nat
deriving DecidableEq

/-- The object spread `{ ...trip, ...patch }`. -/
def applyTripPatch (t : Trip) (p : TripPatch) : Trip :=
  { id := p.id.getD t.id
    userId := p.userId.getD t.userId
    departureAirport := p.departureAirport.getD t.departureAirport
    destinationCity := p.destinationCity.getD t.destinationCity
    departureDate := p.departureDate.getD t.departureDate
    arrivalDate := p.arrivalDate.getD t.arrivalDate
    airline := p.airline.getD t.airline
    flightNumber := p.flightNumber.getD t.flightNumber
    availableWeight := p.availableWeight.getD t.availableWeight
    pricePerKg := p.pricePerKg.getD t.pricePerKg
    notes := p.notes.getD t.notes
    isActive := p.isActive.getD t.isActive
    createdAt := p.createdAt.getD t.createdAt }

/-- The object spread `{ ...pkg, ...patch }`. -/
def applyPackagePatch (pk : Package) (p : PackagePatch) : Package :=
  { id := p.id.getD pk.id
    userId := p.userId.getD pk.userId
    senderCity := p.senderCity.getD pk.senderCity
    receiverCity := p.receiverCity.getD pk.receiverCity
    packageType := p.packageType.getD pk.packageType
    weight := p.weight.getD pk.weight
    dimensions := p.dimensions.getD pk.dimensions
    deliveryDeadline := p.deliveryDeadline.getD pk.deliveryDeadline
    offeredPayment := p.offeredPayment.getD pk.offeredPayment
    description := p.description.getD pk.description
    status := p.status.getD pk.status
    isActive := p.isActive.getD pk.isActive
    createdAt := p.createdAt.getD pk.createdAt }

/-- The patch `{ status: x }` used by `createDelivery` / `updateDeliveryStatus`. -/
def statusOnlyPatch (x : String) : PackagePatch :=
  { id := none, userId := none, senderCity := none, receiverCity := none
    packageType := none, weight := none, dimensions := none, deliveryDeadline := none
    offeredPayment := none, description := none, status := some x, isActive := none
    createdAt := none }

/-! ## Filter objects.

`getTrips` / `getPackages` take a TypeScript `Partial<...>` but only read the
fields below; an absent field is `none`.  JavaScript truthiness makes an
empty-string filter behave like an absent one, which the operations reproduce
with an explicit emptiness test. -/

structure TripFilters where
  departureAirport : Option String
  destinationCity : Option String
  departureDate : Option Nat
  availableWeight : Option ℚ
deriving DecidableEq

structure PackageFilters where
  senderCity : Option String
  receiverCity : Option String
  packageType : Option String
  weight : Option ℚ
  deliveryDeadline : Option Nat
deriving DecidableEq

def noTripFilters : TripFilters :=
  { departureAirport := none, destinationCity := none, departureDate := none
    availableWeight := none }

def noPackageFilters : PackageFilters :=
  { senderCity := none, receiverCity := none, packageType := none, weight := none
    deliveryDeadline := none }

/-! ## MemStorage operations, translated method by method from
`server/storage.ts`.  Asynchrony is dropped (handlers run to completion);
`new Date()` results are passed in as an explicit `now` argument, and the
scrypt hash (salted, hence nondeterministic) is passed in as `hashedPassword`. -/

inductive Role where
  | reviewer
  | reviewee
deriving DecidableEq

def getUser (s : Store) (id : Nat) : Option User := EMap.get s.users id

def getTrip (s : Store) (id : Nat) : Option Trip := EMap.get s.trips id

def getPackage (s : Store) (id : Nat) : Option Package := EMap.get s.packages id

def getDelivery (s : Store) (id : Nat) : Option Delivery := EMap.get s.deliveries id

def getMessage (s : Store) (id : Nat) : Option Message := EMap.get s.messages id

def getReview (s : Store) (id : Nat) : Option Review := EMap.get s.reviews id

def createUser (s : Store) (u : InsertUser) (hashedPassword : String) (now : Nat) :
    User × Store :=
  let id := s.userId
  let user : User :=
    { id := id, password := hashedPassword, email := u.email, firstName := u.firstName
      lastName := u.lastName, profileImage := u.profileImage, isVerified := false
      verificationStatus :=
        { idVerified := false, phoneVerified := false, addressVerified := false }
      createdAt := now, rating := 0, reviewCount := 0 }
  (user, { s with users := EMap.set s.users id user, userId := id + 1 })

def updateUserVerification (s : Store) (userId : Nat) (p : VerifPatch) :
    Except String User × Store :=
  match getUser s userId with
  | none => (Except.error "User not found", s)
  | some user =>
    let vs : VerificationStatus :=
      { idVerified := p.idVerified.getD user.verificationStatus.idVerified
        phoneVerified := p.phoneVerified.getD user.verificationStatus.phoneVerified
        addressVerified := p.addressVerified.getD user.verificationStatus.addressVerified }
    let isFullyVerified := vs.idVerified && vs.phoneVerified && vs.addressVerified
    let updatedUser : User := { user with verificationStatus := vs, isVerified := isFullyVerified }
    (Except.ok updatedUser, { s with users := EMap.set s.users userId updatedUser })

def getTrips (s : Store) (f : TripFilters) : List Trip :=
  let l0 := (EMap.values s.trips).filter (fun t => t.isActive)
  let l1 := match f.departureAirport with
    | some a =>
      if a == "" then l0
      else l0.filter (fun t => includesL (lowerStr a) (lowerStr t.departureAirport))
    | none => l0
  let l2 := match f.destinationCity with
    | some c =>
      if c == "" then l1
      else l1.filter (fun t => includesL (lowerStr c) (lowerStr t.destinationCity))
    | none => l1
  let l3 := match f.departureDate with
    | some d => l2.filter (fun t => decide (d ≤ t.departureDate))
    | none => l2
  let l4 := match f.availableWeight with
    | some w => l3.filter (fun t => decide (w ≤ t.availableWeight))
    | none => l3
  l4

def createTrip (s : Store) (t : InsertTrip) (userId : Nat) (now : Nat) : Trip × Store :=
  let id := s.tripId
  let trip : Trip :=
    { id := id, userId := userId, departureAirport := t.departureAirport
      destinationCity := t.destinationCity, departureDate := t.departureDate
      arrivalDate := t.arrivalDate, airline := t.airline, flightNumber := t.flightNumber
      availableWeight := t.availableWeight, pricePerKg := t.pricePerKg, notes := t.notes
      isActive := true, createdAt := now }
  (trip, { s with trips := EMap.set s.trips id trip, tripId := id + 1 })

def updateTrip (s : Store) (id : Nat) (p : TripPatch) : Option Trip × Store :=
  match getTrip s id with
  | none => (none, s)
  | some trip =>
    let updatedTrip := applyTripPatch trip p
    (some updatedTrip, { s with trips := EMap.set s.trips id updatedTrip })

/-- Body of the `deliveryDeadline` filter callback in `MemStorage.getPackages`:
`if (!pkg.deliveryDeadline) return true; return packageDate >= filterDate`. -/
def deadlinePass (d : Nat) (o : Option Nat) : Bool :=
  match o with
  | none => true
  | some pd => decide (d ≤ pd)

theorem deadlinePass_iff (d : Nat) (o : Option Nat) :
    deadlinePass d o = true ↔ ∀ pd, o = some pd → d ≤ pd := by
  cases o <;> simp [deadlinePass]

/-- The SQL clause `delivery_deadline >= $n` under three-valued logic: a NULL
deadline makes the clause non-true, so the row is filtered out. -/
def pgDeadlinePass (d : Nat) (o : Option Nat) : Bool :=
  match o with
  | none => false
  | some pd => decide (d ≤ pd)

def getPackages (s : Store) (f : PackageFilters) : List Package :=
  let l0 := (EMap.values s.packages).filter (fun pk => pk.isActive)
  let l1 := match f.senderCity with
    | some a =>
      if a == "" then l0
      else l0.filter (fun pk => includesL (lowerStr a) (lowerStr pk.senderCity))
    | none => l0
  let l2 := match f.receiverCity with
    | some c =>
      if c == "" then l1
      else l1.filter (fun pk => includesL (lowerStr c) (lowerStr pk.receiverCity))
    | none => l1
  let l3 := match f.packageType with
    | some ty =>
      if ty == "" then l2
      else l2.filter (fun pk => pk.packageType == ty)
    | none => l2
  let l4 := match f.weight with
    | some w => l3.filter (fun pk => decide (pk.weight ≤ w))
    | none => l3
  let l5 := match f.deliveryDeadline with
    | some d => l4.filter (fun pk => deadlinePass d pk.deliveryDeadline)
    | none => l4
  l5

def createPackage (s : Store) (pk : InsertPackage) (userId : Nat) (now : Nat) :
    Package × Store :=
  let id := s.packageId
  let p : Package :=
    { id := id, userId := userId, senderCity := pk.senderCity, receiverCity := pk.receiverCity
      packageType := pk.packageType, weight := pk.weight, dimensions := pk.dimensions
      deliveryDeadline := pk.deliveryDeadline, offeredPayment := pk.offeredPayment
      description := pk.description, status := "pending", isActive := true, createdAt := now }
  (p, { s with packages := EMap.set s.packages id p, packageId := id + 1 })

def updatePackage (s : Store) (id : Nat) (p : PackagePatch) : Option Package × Store :=
  match getPackage s id with
  | none => (none, s)
  | some pk =>
    let updatedPackage := applyPackagePatch pk p
    (some updatedPackage, { s with packages := EMap.set s.packages id updatedPackage })

def createDelivery (s : Store) (d : InsertDelivery) (now : Nat) : Delivery × Store :=
  let id := s.deliveryId
  let delivery : Delivery :=
    { id := id, tripId := d.tripId, packageId := d.packageId, travelerId := d.travelerId
      senderId := d.senderId, status := "pending", paymentStatus := "pending"
      createdAt := now, updatedAt := now }
  let s1 : Store := { s with deliveries := EMap.set s.deliveries id delivery
                             deliveryId := id + 1 }
  let s2 : Store :=
    match getPackage s1 d.packageId with
    | none => s1
    | some pk => (updatePackage s1 pk.id (statusOnlyPatch "matched")).2
  (delivery, s2)

def updateDeliveryStatus (s : Store) (id : Nat) (status : String) (now : Nat) :
    Option Delivery × Store :=
  match getDelivery s id with
  | none => (none, s)
  | some delivery =>
    let updatedDelivery : Delivery := { delivery with status := status, updatedAt := now }
    let s1 : Store := { s with deliveries := EMap.set s.deliveries id updatedDelivery }
    let s2 : Store :=
      if status == "delivered" then
        match getPackage s1 delivery.packageId with
        | none => s1
        | some pk => (updatePackage s1 pk.id (statusOnlyPatch "delivered")).2
      else s1
    (some updatedDelivery, s2)

def updatePaymentStatus (s : Store) (id : Nat) (paymentStatus : String) (now : Nat) :
    Option Delivery × Store :=
  match getDelivery s id with
  | none => (none, s)
  | some delivery =>
    let updatedDelivery : Delivery :=
      { delivery with paymentStatus := paymentStatus, updatedAt := now }
    (some updatedDelivery, { s with deliveries := EMap.set s.deliveries id updatedDelivery })

def getMessagesBetweenUsers (s : Store) (userId1 userId2 : Nat) : List Message :=
  ((EMap.values s.messages).filter (fun m =>
      (m.senderId == userId1 && m.receiverId == userId2) ||
      (m.senderId == userId2 && m.receiverId == userId1))).mergeSort
    (fun a b => decide (a.createdAt ≤ b.createdAt))

def getMessagesByUserId (s : Store) (userId : Nat) : List Message :=
  ((EMap.values s.messages).filter (fun m =>
      m.senderId == userId || m.receiverId == userId)).mergeSort
    (fun a b => decide (b.createdAt ≤ a.createdAt))

def createMessage (s : Store) (m : InsertMessage) (now : Nat) : Message × Store :=
  let id := s.messageId
  let message : Message :=
    { id := id, senderId := m.senderId, receiverId := m.receiverId, content := m.content
      isRead := false, createdAt := now }
  (message, { s with messages := EMap.set s.messages id message, messageId := id + 1 })

def markMessageAsRead (s : Store) (id : Nat) : Option Message × Store :=
  match getMessage s id with
  | none => (none, s)
  | some message =>
    let updatedMessage : Message := { message with isRead := true }
    (some updatedMessage, { s with messages := EMap.set s.messages id updatedMessage })

def getReviewsByUserId (s : Store) (userId : Nat) (role : Role) : List Review :=
  match role with
  | Role.reviewer => (EMap.values s.reviews).filter (fun r => r.reviewerId == userId)
  | Role.reviewee => (EMap.values s.reviews).filter (fun r => r.revieweeId == userId)

def createReview (s : Store) (r : InsertReview) (now : Nat) : Review × Store :=
  let id := s.reviewId
  let review : Review :=
    { id := id, reviewerId := r.reviewerId, revieweeId := r.revieweeId
      deliveryId := r.deliveryId, rating := r.rating, comment := r.comment, createdAt := now }
  let s1 : Store := { s with reviews := EMap.set s.reviews id review, reviewId := id + 1 }
  match getUser s1 r.revieweeId with
  | none => (review, s1)
  | some user =>
    let userReviews := getReviewsByUserId s1 r.revieweeId Role.reviewee
    let totalRating : Int := userReviews.foldl (fun sum rv => sum + rv.rating) 0
    let newRating : ℚ := (totalRating : ℚ) / (userReviews.length : ℚ)
    let updatedUser : User := { user with rating := newRating, reviewCount := userReviews.length }
    (review, { s1 with users := EMap.set s1.users user.id updatedUser })

/-! ## PgStorage list operations.

`PgStorage.getTrips` / `getPackages` issue a single `SELECT ... WHERE` whose
clauses are modelled here as one conjunctive row predicate: `LOWER(col) LIKE
'%' || f || '%'` (the code interpolates the lowercased filter, unescaped, so
`LIKE` wildcards stay live), SQL `=`/`>=`/`<=` on non-null columns, and the
SQL three-valued `delivery_deadline >= x`, under which a NULL deadline makes
the clause non-true and excludes the row. -/

def pgGetTrips (s : Store) (f : TripFilters) : List Trip :=
  (EMap.values s.trips).filter (fun t =>
    t.isActive &&
    (match f.departureAirport with
      | some a =>
        if a == "" then true
        else likeMatch ('%' :: (lowerStr a ++ ['%'])) (lowerStr t.departureAirport)
      | none => true) &&
    (match f.destinationCity with
      | some c =>
        if c == "" then true
        else likeMatch ('%' :: (lowerStr c ++ ['%'])) (lowerStr t.destinationCity)
      | none => true) &&
    (match f.departureDate with
      | some d => decide (d ≤ t.departureDate)
      | none => true) &&
    (match f.availableWeight with
      | some w => decide (w ≤ t.availableWeight)
      | none => true))

def pgGetPackages (s : Store) (f : PackageFilters) : List Package :=
  (EMap.values s.packages).filter (fun pk =>
    pk.isActive &&
    (match f.senderCity with
      | some a =>
        if a == "" then true
        else likeMatch ('%' :: (lowerStr a ++ ['%'])) (lowerStr pk.senderCity)
      | none => true) &&
    (match f.receiverCity with
      | some c =>
        if c == "" then true
        else likeMatch ('%' :: (lowerStr c ++ ['%'])) (lowerStr pk.receiverCity)
      | none => true) &&
    (match f.packageType with
      | some ty =>
        if ty == "" then true
        else pk.packageType == ty
      | none => true) &&
    (match f.weight with
      | some w => decide (pk.weight ≤ w)
      | none => true) &&
    (match f.deliveryDeadline with
      | some d => pgDeadlinePass d pk.deliveryDeadline
      | none => true))

/-! ## The full mutation surface as one step type, for stating store
invariants over every reachable state. -/

inductive Op where
  | opCreateUser (u : InsertUser) (hashedPassword : String) (now : Nat)
  | opUpdateUserVerification (userId : Nat) (p : VerifPatch)
  | opCreateTrip (t : InsertTrip) (userId : Nat) (now : Nat)
  | opUpdateTrip (id : Nat) (p : TripPatch)
  | opCreatePackage (pk : InsertPackage) (userId : Nat) (now : Nat)
  | opUpdatePackage (id : Nat) (p : PackagePatch)
  | opCreateDelivery (d : InsertDelivery) (now : Nat)
  | opUpdateDeliveryStatus (id : Nat) (status : String) (now : Nat)
  | opUpdatePaymentStatus (id : Nat) (status : String) (now : Nat)
  | opCreateMessage (m : InsertMessage) (now : Nat)
  | opMarkMessageAsRead (id : Nat)
  | opCreateReview (r : InsertReview) (now : Nat)

def applyOp (s : Store) : Op → Store
  | Op.opCreateUser u h now => (createUser s u h now).2
  | Op.opUpdateUserVerification userId p => (updateUserVerification s userId p).2
  | Op.opCreateTrip t userId now => (createTrip s t userId now).2
  | Op.opUpdateTrip id p => (updateTrip s id p).2
  | Op.opCreatePackage pk userId now => (createPackage s pk userId now).2
  | Op.opUpdatePackage id p => (updatePackage s id p).2
  | Op.opCreateDelivery d now => (createDelivery s d now).2
  | Op.opUpdateDeliveryStatus id status now => (updateDeliveryStatus s id status now).2
  | Op.opUpdatePaymentStatus id status now => (updatePaymentStatus s id status now).2
  | Op.opCreateMessage m now => (createMessage s m now).2
  | Op.opMarkMessageAsRead id => (markMessageAsRead s id).2
  | Op.opCreateReview r now => (createReview s r now).2

def applyOps (s : Store) (ops : List Op) : Store := ops.foldl applyOp s

/-- The C9 invariant: every stored user's `isVerified` flag is the conjunction
of the three flags in their `verificationStatus`. -/
def UserVerifiedInv (s : Store) : Prop :=
  ∀ p ∈ s.users, (p : Nat × User).2.isVerified =
    ((p : Nat × User).2.verificationStatus.idVerified &&
     (p : Nat × User).2.verificationStatus.phoneVerified &&
     (p : Nat × User).2.verificationStatus.addressVerified)

/-! ## Frame lemmas: which store components each mutation leaves alone. -/

theorem updatePackage_users (s : Store) (id : Nat) (p : PackagePatch) :
    (updatePackage s id p).2.users = s.users := by
  unfold updatePackage
  cases getPackage s id <;> rfl

theorem updatePackage_deliveries (s : Store) (id : Nat) (p : PackagePatch) :
    (updatePackage s id p).2.deliveries = s.deliveries := by
  unfold updatePackage
  cases getPackage s id <;> rfl

theorem createDelivery_users (s : Store) (d : InsertDelivery) (now : Nat) :
    (createDelivery s d now).2.users = s.users := by
  unfold createDelivery
  dsimp only
  split
  · rfl
  · rw [updatePackage_users]

theorem createDelivery_deliveries (s : Store) (d : InsertDelivery) (now : Nat) :
    (createDelivery s d now).2.deliveries
      = EMap.set s.deliveries s.deliveryId (createDelivery s d now).1 := by
  unfold createDelivery
  dsimp only
  split
  · rfl
  · rw [updatePackage_deliveries]

theorem updateDeliveryStatus_users (s : Store) (id : Nat) (status : String) (now : Nat) :
    (updateDeliveryStatus s id status now).2.users = s.users := by
  unfold updateDeliveryStatus
  cases getDelivery s id with
  | none => rfl
  | some delivery =>
    dsimp only
    split
    · split
      · rfl
      · rw [updatePackage_users]
    · rfl

/-- A user produced by `updateUserVerification` or stored by `createUser`
satisfies the flag conjunction by construction; `createReview` only rewrites
`rating` and `reviewCount`. -/
theorem applyOp_preserves_userVerifiedInv (s : Store) (op : Op)
    (h : UserVerifiedInv s) : UserVerifiedInv (applyOp s op) := by
  cases op with
  | opCreateUser u hp now =>
    intro q hq
    rcases EMap.mem_of_mem_set hq with he | hm
    · rw [he]; rfl
    · exact h q hm
  | opUpdatePackage id p =>
    intro q hq
    simp only [applyOp] at hq
    rw [updatePackage_users] at hq
    exact h q hq
  | opCreateDelivery d now =>
    intro q hq
    simp only [applyOp] at hq
    rw [createDelivery_users] at hq
    exact h q hq
  | opUpdateDeliveryStatus id status now =>
    intro q hq
    simp only [applyOp] at hq
    rw [updateDeliveryStatus_users] at hq
    exact h q hq
  | opUpdateUserVerification userId p =>
    show UserVerifiedInv (updateUserVerification s userId p).2
    unfold updateUserVerification
    cases hg : getUser s userId with
    | none => exact h
    | some user =>
      intro q hq
      rcases EMap.mem_of_mem_set hq with he | hm
      · rw [he]
      · exact h q hm
  | opCreateTrip t userId now => intro q hq; exact h q hq
  | opUpdateTrip id p =>
    show UserVerifiedInv (updateTrip s id p).2
    unfold updateTrip
    cases getTrip s id with
    | none => exact h
    | some trip => intro q hq; exact h q hq
  | opCreatePackage pk userId now => intro q hq; exact h q hq
  | opUpdatePaymentStatus id status now =>
    show UserVerifiedInv (updatePaymentStatus s id status now).2
    unfold updatePaymentStatus
    cases getDelivery s id with
    | none => exact h
    | some delivery => intro q hq; exact h q hq
  | opCreateMessage m now => intro q hq; exact h q hq
  | opMarkMessageAsRead id =>
    show UserVerifiedInv (markMessageAsRead s id).2
    unfold markMessageAsRead
    cases getMessage s id with
    | none => exact h
    | some message => intro q hq; exact h q hq
  | opCreateReview r now =>
    show UserVerifiedInv (createReview s r now).2
    unfold createReview
    dsimp only
    cases hg : getUser { s with reviews := EMap.set s.reviews s.reviewId _
                                reviewId := s.reviewId + 1 } r.revieweeId with
    | none => intro q hq; exact h q hq
    | some user =>
      intro q hq
      rcases EMap.mem_of_mem_set hq with he | hm
      · have hu : (r.revieweeId, user) ∈ s.users := EMap.get_mem hg
        have := h _ hu
        rw [he]
        exact this
      · exact h q hm

/-- C9: starting from the empty store, after any sequence of storage
operations every stored user's `isVerified` flag equals the conjunction of the
three flags `idVerified`, `phoneVerified`, `addressVerified` in that user's
`verificationStatus`. -/
theorem userVerified_is_conjunction_of_flags (ops : List Op) :
    UserVerifiedInv (applyOps emptyStore ops) := by
  suffices hgen : ∀ (l : List Op) (s : Store), UserVerifiedInv s → UserVerifiedInv (applyOps s l) by
    exact hgen ops emptyStore (by intro q hq; simp [emptyStore] at hq)
  intro l
  induction l with
  | nil => intro s hs; exact hs
  | cons op t ih =>
    intro s hs
    exact ih (applyOp s op) (applyOp_preserves_userVerifiedInv s op hs)

/-- Merging only a status field into a package rewrites exactly that field. -/
theorem applyPackagePatch_statusOnly (P : Package) (x : String) :
    applyPackagePatch P (statusOnlyPatch x) = { P with status := x } := rfl

/-- The packages component after `createDelivery`, when the linked package
exists and is stored under its own id. -/
theorem createDelivery_packages_of_some (s : Store) (d : InsertDelivery) (now : Nat)
    (P : Package) (hP : getPackage s d.packageId = some P) (hid : P.id = d.packageId) :
    (createDelivery s d now).2.packages
      = EMap.set s.packages P.id (applyPackagePatch P (statusOnlyPatch "matched")) := by
  unfold createDelivery
  dsimp only
  split
  next hnone => exact Option.noConfusion (hnone.symm.trans hP)
  next pk hsome =>
    have hpk : pk = P := Option.some.inj (hsome.symm.trans hP)
    subst hpk
    unfold updatePackage
    split
    next hnone2 =>
      have : getPackage s pk.id = none := hnone2
      rw [hid] at this
      exact Option.noConfusion (this.symm.trans hP)
    next pk2 hsome2 =>
      have h2 : getPackage s pk.id = some pk2 := hsome2
      rw [hid] at h2
      have : pk2 = pk := Option.some.inj (h2.symm.trans hP)
      subst this
      rfl

/-- C1: creating a Delivery whose payload names an existing Package `P`
(stored under its own id) makes `getPackage P.id` report status `"matched"`
immediately afterward, regardless of `P`'s prior status. -/
theorem createDelivery_forces_matched (s : Store) (d : InsertDelivery) (now : Nat)
    (P : Package) (hP : getPackage s d.packageId = some P) (hid : P.id = d.packageId) :
    ∃ P', getPackage (createDelivery s d now).2 d.packageId = some P' ∧
      P'.status = "matched" := by
  refine ⟨applyPackagePatch P (statusOnlyPatch "matched"), ?_, rfl⟩
  show EMap.get (createDelivery s d now).2.packages d.packageId = _
  rw [createDelivery_packages_of_some s d now P hP hid, ← hid]
  exact EMap.get_set_self _ _ _

def wPackageDelivered : Package :=
  { id := 1, userId := 1, senderCity := "New York", receiverCity := "Addis Ababa"
    packageType := "documents", weight := 5, dimensions := none, deliveryDeadline := none
    offeredPayment := 100, description := none, status := "delivered", isActive := true
    createdAt := 0 }

def wStoreC1 : Store := { emptyStore with packages := [(1, wPackageDelivered)], packageId := 2 }

theorem createDelivery_forces_matched_witness :
    ∃ P', getPackage (createDelivery wStoreC1 ⟨1, 1, 1, 1⟩ 7).2 1 = some P' ∧
      P'.status = "matched" :=
  createDelivery_forces_matched wStoreC1 ⟨1, 1, 1, 1⟩ 7 wPackageDelivered rfl rfl

/-- C2: updating a Delivery's status propagates `"delivered"` to the linked
Package exactly when the new status string is `"delivered"`; any other string
leaves the whole packages map (hence every field of `P`) untouched. -/
theorem updateDeliveryStatus_package_effect (s : Store) (did : Nat) (D : Delivery)
    (P : Package) (status : String) (now : Nat)
    (hD : getDelivery s did = some D) (hP : getPackage s D.packageId = some P)
    (hid : P.id = D.packageId) :
    (status = "delivered" →
      getPackage (updateDeliveryStatus s did status now).2 D.packageId
        = some { P with status := "delivered" }) ∧
    (status ≠ "delivered" →
      (updateDeliveryStatus s did status now).2.packages = s.packages) := by
  unfold updateDeliveryStatus
  rw [hD]
  dsimp only
  constructor
  · intro hst
    subst hst
    rw [if_pos (by simp)]
    show EMap.get _ D.packageId = _
    split
    next hnone => exact Option.noConfusion (hnone.symm.trans hP)
    next pk hsome =>
      have hpk : pk = P := Option.some.inj (hsome.symm.trans hP)
      subst hpk
      unfold updatePackage
      split
      next hnone2 =>
        have h2 : getPackage s pk.id = none := hnone2
        rw [hid] at h2
        exact Option.noConfusion (h2.symm.trans hP)
      next pk2 hsome2 =>
        have h2 : getPackage s pk.id = some pk2 := hsome2
        rw [hid] at h2
        have hp2 : pk2 = pk := Option.some.inj (h2.symm.trans hP)
        subst hp2
        show EMap.get (EMap.set _ _ _) D.packageId = _
        rw [← hid, EMap.get_set_self]
        rfl
  · intro hst
    rw [if_neg (by simpa using hst)]

def wDeliveryC2 : Delivery :=
  { id := 1, tripId := 1, packageId := 1, travelerId := 1, senderId := 2
    status := "pending", paymentStatus := "pending", createdAt := 0, updatedAt := 0 }

def wPackageC2 : Package :=
  { id := 1, userId := 2, senderCity := "New York", receiverCity := "Addis Ababa"
    packageType := "clothing", weight := 3, dimensions := none, deliveryDeadline := none
    offeredPayment := 80, description := none, status := "matched", isActive := true
    createdAt := 0 }

def wStoreC2 : Store :=
  { emptyStore with packages := [(1, wPackageC2)], packageId := 2
                    deliveries := [(1, wDeliveryC2)], deliveryId := 2 }

theorem updateDeliveryStatus_package_effect_witness :
    getPackage (updateDeliveryStatus wStoreC2 1 "delivered" 9).2 1
      = some { wPackageC2 with status := "delivered" } ∧
    (updateDeliveryStatus wStoreC2 1 "in_transit" 9).2.packages = wStoreC2.packages :=
  ⟨(updateDeliveryStatus_package_effect wStoreC2 1 wDeliveryC2 wPackageC2 "delivered" 9
      rfl rfl rfl).1 rfl,
   (updateDeliveryStatus_package_effect wStoreC2 1 wDeliveryC2 wPackageC2 "in_transit" 9
      rfl rfl rfl).2 (by decide)⟩

/-- C10: every Delivery is created with status `"pending"` and paymentStatus
`"pending"` (the validated insert payload carries no status fields at all),
and `getDelivery` immediately reads back the freshly stored record. -/
theorem createDelivery_initial_statuses (s : Store) (d : InsertDelivery) (now : Nat) :
    (createDelivery s d now).1.status = "pending" ∧
    (createDelivery s d now).1.paymentStatus = "pending" ∧
    getDelivery (createDelivery s d now).2 s.deliveryId = some (createDelivery s d now).1 := by
  refine ⟨rfl, rfl, ?_⟩
  show EMap.get (createDelivery s d now).2.deliveries s.deliveryId = _
  rw [createDelivery_deliveries]
  exact EMap.get_set_self _ _ _

/-- C8: every `get` operation returns `none` for an id that names no stored
entity (totality of the model means none of them can throw), while
`updateUserVerification` on an unknown user id fails with the not-found error
and leaves the store exactly as it was. -/
theorem unknown_id_behaviour (s : Store) (id : Nat) (p : VerifPatch)
    (hu : ∀ q ∈ s.users, (q : Nat × User).1 ≠ id)
    (ht : ∀ q ∈ s.trips, (q : Nat × Trip).1 ≠ id)
    (hpk : ∀ q ∈ s.packages, (q : Nat × Package).1 ≠ id)
    (hd : ∀ q ∈ s.deliveries, (q : Nat × Delivery).1 ≠ id)
    (hm : ∀ q ∈ s.messages, (q : Nat × Message).1 ≠ id)
    (hr : ∀ q ∈ s.reviews, (q : Nat × Review).1 ≠ id) :
    getUser s id = none ∧ getTrip s id = none ∧ getPackage s id = none ∧
    getDelivery s id = none ∧ getMessage s id = none ∧ getReview s id = none ∧
    (updateUserVerification s id p).1 = Except.error "User not found" ∧
    (updateUserVerification s id p).2 = s := by
  have hgu : getUser s id = none := EMap.get_eq_none _ _ hu
  refine ⟨hgu, EMap.get_eq_none _ _ ht, EMap.get_eq_none _ _ hpk, EMap.get_eq_none _ _ hd,
    EMap.get_eq_none _ _ hm, EMap.get_eq_none _ _ hr, ?_, ?_⟩
  · unfold updateUserVerification
    rw [hgu]
  · unfold updateUserVerification
    rw [hgu]

theorem unknown_id_behaviour_witness :
    getUser emptyStore 1 = none ∧ getTrip emptyStore 1 = none ∧
    getPackage emptyStore 1 = none ∧ getDelivery emptyStore 1 = none ∧
    getMessage emptyStore 1 = none ∧ getReview emptyStore 1 = none ∧
    (updateUserVerification emptyStore 1 ⟨none, none, none⟩).1
      = Except.error "User not found" ∧
    (updateUserVerification emptyStore 1 ⟨none, none, none⟩).2 = emptyStore :=
  unknown_id_behaviour emptyStore 1 ⟨none, none, none⟩
    (by intro q hq; simp [emptyStore] at hq) (by intro q hq; simp [emptyStore] at hq)
    (by intro q hq; simp [emptyStore] at hq) (by intro q hq; simp [emptyStore] at hq)
    (by intro q hq; simp [emptyStore] at hq) (by intro q hq; simp [emptyStore] at hq)

/-! ## Substring lemmas and the exact characterization of the list filters. -/

theorem startsW_nil_left (hay : List Char) : startsW [] hay = true := by
  cases hay <;> rfl

theorem includesL_nil_left (hay : List Char) : includesL [] hay = true := by
  induction hay with
  | nil => rfl
  | cons d t ih => rw [includesL]; simp [startsW_nil_left]

theorem lowerStr_empty : lowerStr "" = [] := rfl

/-- Membership in `MemStorage.getTrips`: exactly the active trips satisfying
every supplied filter predicate; a missing (or, by JavaScript truthiness,
empty-string) filter key never excludes a trip. -/
theorem mem_getTrips_iff (s : Store) (f : TripFilters) (t : Trip) :
    t ∈ getTrips s f ↔
      t ∈ EMap.values s.trips ∧ t.isActive = true ∧
      (∀ a, f.departureAirport = some a →
        includesL (lowerStr a) (lowerStr t.departureAirport) = true) ∧
      (∀ c, f.destinationCity = some c →
        includesL (lowerStr c) (lowerStr t.destinationCity) = true) ∧
      (∀ d, f.departureDate = some d → d ≤ t.departureDate) ∧
      (∀ w, f.availableWeight = some w → w ≤ t.availableWeight) := by
  obtain ⟨fa, fc, fd, fw⟩ := f
  cases fa <;> cases fc <;> cases fd <;> cases fw <;>
    (simp only [getTrips]; try split_ifs with h1 h2) <;>
    (try simp_all [List.mem_filter, forall_eq', and_assoc, beq_iff_eq,
      includesL_nil_left, lowerStr_empty]) <;>
    try tauto

/-- Membership in `MemStorage.getPackages`: exactly the active packages
satisfying every supplied filter predicate (a package with no
`deliveryDeadline` trivially passes a supplied deadline filter). -/
theorem mem_getPackages_iff (s : Store) (f : PackageFilters) (pk : Package) :
    pk ∈ getPackages s f ↔
      pk ∈ EMap.values s.packages ∧ pk.isActive = true ∧
      (∀ a, f.senderCity = some a →
        includesL (lowerStr a) (lowerStr pk.senderCity) = true) ∧
      (∀ c, f.receiverCity = some c →
        includesL (lowerStr c) (lowerStr pk.receiverCity) = true) ∧
      (∀ ty, f.packageType = some ty → ty ≠ "" → pk.packageType = ty) ∧
      (∀ w, f.weight = some w → pk.weight ≤ w) ∧
      (∀ d, f.deliveryDeadline = some d →
        ∀ pd, pk.deliveryDeadline = some pd → d ≤ pd) := by
  obtain ⟨fa, fc, fty, fw, fd⟩ := f
  cases fa <;> cases fc <;> cases fty <;> cases fw <;> cases fd <;>
    (simp only [getPackages]; try split_ifs with h1 h2 h3) <;>
    (try simp_all [List.mem_filter, forall_eq', and_assoc, beq_iff_eq,
      includesL_nil_left, lowerStr_empty, deadlinePass_iff]) <;>
    try tauto

/-- C4: `getTrips` returns exactly the stored Trips with `isActive = true` for
which every supplied filter predicate holds — case-insensitive substring match
on `departureAirport` and `destinationCity`, `departureDate` on or after the
filter date, `availableWeight` at least the filter value — and a Trip is never
excluded on account of a filter key that was not supplied. -/
theorem getTrips_exact_filtering (s : Store) (f : TripFilters) (t : Trip) :
    t ∈ getTrips s f ↔
      t ∈ EMap.values s.trips ∧ t.isActive = true ∧
      (∀ a, f.departureAirport = some a →
        includesL (lowerStr a) (lowerStr t.departureAirport) = true) ∧
      (∀ c, f.destinationCity = some c →
        includesL (lowerStr c) (lowerStr t.destinationCity) = true) ∧
      (∀ d, f.departureDate = some d → d ≤ t.departureDate) ∧
      (∀ w, f.availableWeight = some w → w ≤ t.availableWeight) :=
  mem_getTrips_iff s f t

def wTripC4 : Trip :=
  { id := 1, userId := 1, departureAirport := "JFK", destinationCity := "Addis Ababa"
    departureDate := 10, arrivalDate := 11, airline := none, flightNumber := none
    availableWeight := 10, pricePerKg := 15, notes := none, isActive := true, createdAt := 0 }

def wStoreC4 : Store := { emptyStore with trips := [(1, wTripC4)], tripId := 2 }

def wFiltC4 : TripFilters :=
  { departureAirport := some "jfk", destinationCity := none, departureDate := some 5
    availableWeight := some 4 }

theorem getTrips_exact_filtering_witness : wTripC4 ∈ getTrips wStoreC4 wFiltC4 :=
  (getTrips_exact_filtering wStoreC4 wFiltC4 wTripC4).mpr
    ⟨by decide, by decide,
     by intro a ha; obtain rfl : a = "jfk" := (Option.some.inj ha).symm; decide,
     fun c hc => Option.noConfusion hc,
     by intro d hd; obtain rfl : d = 5 := (Option.some.inj hd).symm; decide,
     by intro v hv; obtain rfl : v = 4 := (Option.some.inj hv).symm; decide⟩

/-- C6: a supplied `availableWeight` filter is a minimum threshold on Trips
(only trips with at least that capacity are returned), while a supplied
`weight` filter is a maximum threshold on Packages (only packages at most
that heavy are returned). -/
theorem weight_filters_are_asymmetric_thresholds (s : Store) (f : TripFilters)
    (g : PackageFilters) (w : ℚ) (hf : f.availableWeight = some w) (hg : g.weight = some w) :
    (∀ t ∈ getTrips s f, w ≤ t.availableWeight) ∧
    (∀ pk ∈ getPackages s g, pk.weight ≤ w) := by
  constructor
  · intro t ht
    exact ((mem_getTrips_iff s f t).mp ht).2.2.2.2.2 w hf
  · intro pk hpk
    exact ((mem_getPackages_iff s g pk).mp hpk).2.2.2.2.2.1 w hg

def wPkgFiltC6 : PackageFilters :=
  { senderCity := none, receiverCity := none, packageType := none, weight := some 4
    deliveryDeadline := none }

theorem weight_filters_witness :
    (4 : ℚ) ≤ wTripC4.availableWeight ∧ wPackageC2.weight ≤ (4 : ℚ) :=
  ⟨(weight_filters_are_asymmetric_thresholds wStoreC4 wFiltC4 wPkgFiltC6 4 rfl rfl).1
      wTripC4 (by decide),
   (weight_filters_are_asymmetric_thresholds wStoreC2 wFiltC4 wPkgFiltC6 4 rfl rfl).2
      wPackageC2 (by decide)⟩

/-! ## Message query lemmas. -/

theorem mergeSort_pairwise_le (l : List Message) :
    (l.mergeSort (fun a b => decide (a.createdAt ≤ b.createdAt))).Pairwise
      (fun m1 m2 => m1.createdAt ≤ m2.createdAt) := by
  have h := @List.sorted_mergeSort Message
    (fun a b : Message => decide (a.createdAt ≤ b.createdAt))
    (by intro x y z hxy hyz; simp only [decide_eq_true_eq] at hxy hyz ⊢; omega)
    (by intro x y; simpa using Nat.le_total x.createdAt y.createdAt) l
  exact h.imp (by intro x y hxy; simpa using hxy)

theorem mergeSort_pairwise_ge (l : List Message) :
    (l.mergeSort (fun a b => decide (b.createdAt ≤ a.createdAt))).Pairwise
      (fun m1 m2 => m2.createdAt ≤ m1.createdAt) := by
  have h := @List.sorted_mergeSort Message
    (fun a b : Message => decide (b.createdAt ≤ a.createdAt))
    (by intro x y z hxy hyz; simp only [decide_eq_true_eq] at hxy hyz ⊢; omega)
    (by intro x y; simpa using Nat.le_total y.createdAt x.createdAt) l
  exact h.imp (by intro x y hxy; simpa using hxy)

/-- C7: `getMessagesBetweenUsers` is symmetric in its two user arguments and
returns the messages exchanged between them sorted ascending by creation
time; `getMessagesByUserId` returns the messages in which the user is sender
or receiver, sorted descending by creation time. -/
theorem message_queries_spec (s : Store) (a b u : Nat) :
    getMessagesBetweenUsers s a b = getMessagesBetweenUsers s b a ∧
    (getMessagesBetweenUsers s a b).Pairwise
      (fun m1 m2 => m1.createdAt ≤ m2.createdAt) ∧
    (∀ m, m ∈ getMessagesBetweenUsers s a b ↔
        m ∈ EMap.values s.messages ∧
        ((m.senderId = a ∧ m.receiverId = b) ∨ (m.senderId = b ∧ m.receiverId = a))) ∧
    (∀ m, m ∈ getMessagesByUserId s u ↔
        m ∈ EMap.values s.messages ∧ (m.senderId = u ∨ m.receiverId = u)) ∧
    (getMessagesByUserId s u).Pairwise (fun m1 m2 => m2.createdAt ≤ m1.createdAt) := by
  refine ⟨?_, ?_, ?_, ?_, ?_⟩
  · unfold getMessagesBetweenUsers
    congr 1
    apply List.filter_congr
    intro m hm
    rw [Bool.or_comm]
  · exact mergeSort_pairwise_le _
  · intro m
    simp [getMessagesBetweenUsers, List.mem_filter]
  · intro m
    simp [getMessagesByUserId, List.mem_filter]
  · exact mergeSort_pairwise_ge _

/-! ## Rating aggregation (C3). -/

/-- The ratings of all stored reviews naming `uid` as reviewee, in store
order. -/
def revieweeRatings (s : Store) (uid : Nat) : List Int :=
  ((EMap.values s.reviews).filter (fun rv => rv.revieweeId == uid)).map Review.rating

/-- Fold a list of `createReview` calls (payload and timestamp) over a store. -/
def runReviews (s : Store) (inputs : List (InsertReview × Nat)) : Store :=
  inputs.foldl (fun st pr => (createReview st pr.1 pr.2).2) s

theorem foldl_rating_sum_aux (l : List Review) (acc : Int) :
    l.foldl (fun sum rv => sum + rv.rating) acc = acc + (l.map Review.rating).sum := by
  induction l generalizing acc with
  | nil => simp
  | cons rv t ih => simp [ih, add_assoc]

theorem rating_formula (l : List Review) :
    ((l.foldl (fun sum rv => sum + rv.rating) 0 : Int) : ℚ) / (l.length : ℚ)
      = ((l.map Review.rating).sum : ℚ) / ((l.map Review.rating).length : ℚ) := by
  rw [foldl_rating_sum_aux, zero_add, List.length_map]

/-- Effect of a single `createReview` call on the reviewee's stored record,
assuming the reviewee exists under their own id and the review-id counter is
fresh for the review map (the invariant `MemStorage` maintains). -/
theorem createReview_step (st : Store) (r : InsertReview) (now : Nat) (U : User)
    (hU : getUser st r.revieweeId = some U) (hid : U.id = r.revieweeId)
    (hfresh : ∀ p ∈ st.reviews, (p : Nat × Review).1 < st.reviewId) :
    ∃ U', getUser (createReview st r now).2 r.revieweeId = some U' ∧
      U'.id = r.revieweeId ∧
      revieweeRatings (createReview st r now).2 r.revieweeId
        = revieweeRatings st r.revieweeId ++ [r.rating] ∧
      (∀ p ∈ (createReview st r now).2.reviews,
        (p : Nat × Review).1 < (createReview st r now).2.reviewId) ∧
      U'.rating = ((revieweeRatings (createReview st r now).2 r.revieweeId).sum : ℚ) /
        ((revieweeRatings (createReview st r now).2 r.revieweeId).length : ℚ) ∧
      U'.reviewCount = (revieweeRatings (createReview st r now).2 r.revieweeId).length := by
  have hne_key : ∀ p ∈ st.reviews, (p : Nat × Review).1 ≠ st.reviewId :=
    fun p hp => Nat.ne_of_lt (hfresh p hp)
  unfold createReview
  dsimp only
  rw [EMap.set_eq_append hne_key]
  split
  next hnone => exact Option.noConfusion (hnone.symm.trans hU)
  next user husr =>
    have huser : user = U := Option.some.inj (husr.symm.trans hU)
    subst huser
    refine ⟨?_, ?_, ?_, ?_, ?_, ?_, ?_⟩
    rotate_left
    · show EMap.get (EMap.set _ user.id _) r.revieweeId = some _
      rw [hid]
      exact EMap.get_set_self _ _ _
    · rfl
    · show revieweeRatings _ r.revieweeId = _
      simp [revieweeRatings, EMap.values, List.filter_append]
    · intro p hp
      show (p : Nat × Review).1 < st.reviewId + 1
      rcases List.mem_append.mp hp with h1 | h2
      · exact Nat.lt_succ_of_lt (hfresh p h1)
      · rw [List.mem_singleton.mp h2]
        exact Nat.lt_succ_self _
    · exact rating_formula _
    · exact (List.length_map _ _).symm

theorem runReviews_state (inputs : List (InsertReview × Nat)) :
    ∀ (st : Store) (uid : Nat) (U : User),
      getUser st uid = some U → U.id = uid →
      (∀ p ∈ st.reviews, (p : Nat × Review).1 < st.reviewId) →
      (∀ pr ∈ inputs, (pr : InsertReview × Nat).1.revieweeId = uid) →
      ∃ U', getUser (runReviews st inputs) uid = some U' ∧ U'.id = uid ∧
        revieweeRatings (runReviews st inputs) uid
          = revieweeRatings st uid ++ inputs.map (fun pr => pr.1.rating) ∧
        (inputs = [] → U' = U) ∧
        (inputs ≠ [] →
          U'.rating = ((revieweeRatings (runReviews st inputs) uid).sum : ℚ) /
            ((revieweeRatings (runReviews st inputs) uid).length : ℚ) ∧
          U'.reviewCount = (revieweeRatings (runReviews st inputs) uid).length) := by
  induction inputs with
  | nil =>
    intro st uid U hU hid hfresh _
    exact ⟨U, hU, hid, by simp [runReviews], fun _ => rfl, fun h => absurd rfl h⟩
  | cons pr rest ih =>
    intro st uid U hU hid hfresh hall
    have hr : pr.1.revieweeId = uid := hall pr (List.mem_cons_self _ _)
    subst hr
    obtain ⟨U1, hU1, hid1, hRL1, hfresh1, hrate1, hcnt1⟩ :=
      createReview_step st pr.1 pr.2 U hU hid hfresh
    obtain ⟨U', h1, h2, h3, h4, h5⟩ :=
      ih (createReview st pr.1 pr.2).2 pr.1.revieweeId U1 hU1 hid1 hfresh1
        (fun q hq => hall q (List.mem_cons_of_mem _ hq))
    refine ⟨U', h1, h2, ?_, fun h => absurd h (List.cons_ne_nil _ _), fun _ => ?_⟩
    · show revieweeRatings (runReviews (createReview st pr.1 pr.2).2 rest) _ = _
      rw [h3, hRL1]
      simp
    · by_cases h0 : rest = []
      · subst h0
        have hU'eq : U' = U1 := h4 rfl
        subst hU'eq
        exact ⟨hrate1, hcnt1⟩
      · exact h5 h0

/-- C3: starting from a state holding user `U` (under their own id, with the
review-id counter fresh) and no reviews naming `U` as reviewee, after a
sequence of `createReview` calls all naming `U` as reviewee with ratings
r₁..r_N, `getUser U.id` reports rating (r₁+⋯+r_N)/N and reviewCount N. -/
theorem createReview_mean_rating (s : Store) (uid : Nat) (U : User)
    (inputs : List (InsertReview × Nat))
    (hU : getUser s uid = some U) (hid : U.id = uid)
    (hfresh : ∀ p ∈ s.reviews, (p : Nat × Review).1 < s.reviewId)
    (hnone : revieweeRatings s uid = [])
    (hall : ∀ pr ∈ inputs, (pr : InsertReview × Nat).1.revieweeId = uid)
    (hne : inputs ≠ []) :
    ∃ U', getUser (runReviews s inputs) uid = some U' ∧
      U'.rating = (((inputs.map (fun pr => pr.1.rating)).sum : Int) : ℚ) /
        (inputs.length : ℚ) ∧
      U'.reviewCount = inputs.length := by
  obtain ⟨U', h1, _, h3, _, h5⟩ := runReviews_state inputs s uid U hU hid hfresh hall
  rw [hnone, List.nil_append] at h3
  obtain ⟨hrat, hcnt⟩ := h5 hne
  refine ⟨U', h1, ?_, ?_⟩
  · rw [hrat, h3, List.length_map]
  · rw [hcnt, h3, List.length_map]

def wUserC3 : User :=
  { id := 1, password := "h", email := "a@b.c", firstName := "Abel", lastName := "T"
    profileImage := none, isVerified := false
    verificationStatus := { idVerified := false, phoneVerified := false, addressVerified := false }
    createdAt := 0, rating := 0, reviewCount := 0 }

def wStoreC3 : Store := { emptyStore with users := [(1, wUserC3)], userId := 2 }

def wInputsC3 : List (InsertReview × Nat) :=
  [(⟨2, 1, none, 5, none⟩, 3), (⟨3, 1, none, 2, none⟩, 4)]

theorem createReview_mean_rating_witness :
    ∃ U', getUser (runReviews wStoreC3 wInputsC3) 1 = some U' ∧
      U'.rating = (((wInputsC3.map (fun pr => pr.1.rating)).sum : Int) : ℚ) /
        (wInputsC3.length : ℚ) ∧
      U'.reviewCount = wInputsC3.length :=
  createReview_mean_rating wStoreC3 1 wUserC3 wInputsC3 rfl rfl
    (by intro p hp; simp [wStoreC3, emptyStore] at hp) rfl
    (by intro pr hpr; fin_cases hpr <;> rfl) (by simp [wInputsC3])

/-! ## SQL LIKE versus JavaScript `includes` (C5). -/

theorem likeMatch_pct_all (s : List Char) : likeMatch ['%'] s = true := by
  induction s with
  | nil => rfl
  | cons d t ih =>
    show likeStar (likeMatch []) (d :: t) = true
    rw [likeStar]
    simp only [Bool.or_eq_true]
    right
    exact ih

theorem likeMatch_append_pct (n : List Char) (hn : CleanL n) :
    ∀ s, likeMatch (n ++ ['%']) s = startsW n s := by
  induction n with
  | nil =>
    intro s
    simp [likeMatch_pct_all, startsW_nil_left]
  | cons c n ih =>
    intro s
    obtain ⟨hc1, hc2, hc3⟩ := hn c (List.mem_cons_self _ _)
    have hn' : CleanL n := fun x hx => hn x (List.mem_cons_of_mem _ hx)
    cases s with
    | nil =>
      rw [List.cons_append, likeMatch]
      · simp [startsW]
      all_goals simp_all
    | cons d t =>
      rw [List.cons_append, likeMatch]
      · simp [startsW, ih hn' t]
      all_goals simp_all

theorem likeMatch_pct_wrap (n : List Char) (hn : CleanL n) :
    ∀ s, likeMatch ('%' :: (n ++ ['%'])) s = includesL n s := by
  intro s
  induction s with
  | nil =>
    show likeStar (likeMatch (n ++ ['%'])) [] = _
    rw [likeStar, likeMatch_append_pct n hn, includesL]
  | cons d t ih =>
    show likeStar (likeMatch (n ++ ['%'])) (d :: t) = _
    rw [likeStar, likeMatch_append_pct n hn, includesL]
    rw [show likeStar (likeMatch (n ++ ['%'])) t = includesL n t from ih]

theorem pgDeadlinePass_iff (d : Nat) (o : Option Nat) :
    pgDeadlinePass d o = true ↔ ∃ pd, o = some pd ∧ d ≤ pd := by
  cases o <;> simp [pgDeadlinePass]

/-- Membership in `PgStorage.getTrips` (`SELECT ... WHERE` semantics). -/
theorem mem_pgGetTrips_iff (s : Store) (f : TripFilters) (t : Trip) :
    t ∈ pgGetTrips s f ↔
      t ∈ EMap.values s.trips ∧ t.isActive = true ∧
      (∀ a, f.departureAirport = some a → a ≠ "" →
        likeMatch ('%' :: (lowerStr a ++ ['%'])) (lowerStr t.departureAirport) = true) ∧
      (∀ c, f.destinationCity = some c → c ≠ "" →
        likeMatch ('%' :: (lowerStr c ++ ['%'])) (lowerStr t.destinationCity) = true) ∧
      (∀ d, f.departureDate = some d → d ≤ t.departureDate) ∧
      (∀ w, f.availableWeight = some w → w ≤ t.availableWeight) := by
  obtain ⟨fa, fc, fd, fw⟩ := f
  cases fa <;> cases fc <;> cases fd <;> cases fw <;>
    (simp only [pgGetTrips, List.mem_filter]; try split_ifs with h1 h2) <;>
    (try simp_all [forall_eq', and_assoc, beq_iff_eq]) <;>
    try tauto

/-- Membership in `PgStorage.getPackages` (`SELECT ... WHERE` semantics). -/
theorem mem_pgGetPackages_iff (s : Store) (f : PackageFilters) (pk : Package) :
    pk ∈ pgGetPackages s f ↔
      pk ∈ EMap.values s.packages ∧ pk.isActive = true ∧
      (∀ a, f.senderCity = some a → a ≠ "" →
        likeMatch ('%' :: (lowerStr a ++ ['%'])) (lowerStr pk.senderCity) = true) ∧
      (∀ c, f.receiverCity = some c → c ≠ "" →
        likeMatch ('%' :: (lowerStr c ++ ['%'])) (lowerStr pk.receiverCity) = true) ∧
      (∀ ty, f.packageType = some ty → ty ≠ "" → pk.packageType = ty) ∧
      (∀ w, f.weight = some w → pk.weight ≤ w) ∧
      (∀ d, f.deliveryDeadline = some d → pgDeadlinePass d pk.deliveryDeadline = true) := by
  obtain ⟨fa, fc, fty, fw, fd⟩ := f
  cases fa <;> cases fc <;> cases fty <;> cases fw <;> cases fd <;>
    (simp only [pgGetPackages, List.mem_filter]; try split_ifs with h1 h2 h3) <;>
    (try simp_all [forall_eq', and_assoc, beq_iff_eq]) <;>
    try tauto

def cexPackage : Package :=
  { id := 1, userId := 1, senderCity := "NY", receiverCity := "Addis", packageType := "docs"
    weight := 2, dimensions := none, deliveryDeadline := none, offeredPayment := 50
    description := none, status := "pending", isActive := true, createdAt := 0 }

def cexStore : Store := { emptyStore with packages := [(1, cexPackage)], packageId := 2 }

def cexFilters : PackageFilters :=
  { senderCity := none, receiverCity := none, packageType := none, weight := none
    deliveryDeadline := some 100 }

/-- C5 counterexample: a stored active Package whose `deliveryDeadline` is
NULL is returned by the in-memory `getPackages` under a supplied
`deliveryDeadline` filter, but excluded by the SQL implementation, so the two
implementations do not return the same set. -/
theorem mem_pg_filtering_differ :
    cexPackage ∈ getPackages cexStore cexFilters ∧
    cexPackage ∉ pgGetPackages cexStore cexFilters := by decide

/-- C5 amended: the in-memory and SQL list operations return the same set of
Trips and the same set of Packages, provided every supplied string filter is
free of the `LIKE` metacharacters percent, underscore and backslash (after
lowercasing; the source interpolates the filter into the pattern unescaped),
and, when a `deliveryDeadline` filter is supplied, no stored package has a
NULL `deliveryDeadline`. -/
theorem storage_backends_agree_on_filters (s : Store) (f : TripFilters)
    (g : PackageFilters)
    (hfa : ∀ a, f.departureAirport = some a → CleanL (lowerStr a))
    (hfc : ∀ c, f.destinationCity = some c → CleanL (lowerStr c))
    (hga : ∀ a, g.senderCity = some a → CleanL (lowerStr a))
    (hgc : ∀ c, g.receiverCity = some c → CleanL (lowerStr c))
    (hgd : g.deliveryDeadline = none ∨
      ∀ pk ∈ EMap.values s.packages, (pk : Package).deliveryDeadline ≠ none) :
    (∀ t, t ∈ getTrips s f ↔ t ∈ pgGetTrips s f) ∧
    (∀ pk, pk ∈ getPackages s g ↔ pk ∈ pgGetPackages s g) := by
  constructor
  · intro t
    rw [mem_getTrips_iff, mem_pgGetTrips_iff]
    constructor
    · rintro ⟨h1, h2, h3, h4, h5, h6⟩
      refine ⟨h1, h2, ?_, ?_, h5, h6⟩
      · intro a ha _
        rw [likeMatch_pct_wrap _ (hfa a ha)]
        exact h3 a ha
      · intro c hc _
        rw [likeMatch_pct_wrap _ (hfc c hc)]
        exact h4 c hc
    · rintro ⟨h1, h2, h3, h4, h5, h6⟩
      refine ⟨h1, h2, ?_, ?_, h5, h6⟩
      · intro a ha
        by_cases hae : a = ""
        · subst hae
          rw [lowerStr_empty]
          exact includesL_nil_left _
        · rw [← likeMatch_pct_wrap _ (hfa a ha)]
          exact h3 a ha hae
      · intro c hc
        by_cases hce : c = ""
        · subst hce
          rw [lowerStr_empty]
          exact includesL_nil_left _
        · rw [← likeMatch_pct_wrap _ (hfc c hc)]
          exact h4 c hc hce
  · intro pk
    rw [mem_getPackages_iff, mem_pgGetPackages_iff]
    constructor
    · rintro ⟨h1, h2, h3, h4, h5, h6, h7⟩
      refine ⟨h1, h2, ?_, ?_, h5, h6, ?_⟩
      · intro a ha _
        rw [likeMatch_pct_wrap _ (hga a ha)]
        exact h3 a ha
      · intro c hc _
        rw [likeMatch_pct_wrap _ (hgc c hc)]
        exact h4 c hc
      · intro d hd
        rcases hgd with hnone | hall
        · rw [hd] at hnone
          exact Option.noConfusion hnone
        · have hne := hall pk h1
          cases hpd : pk.deliveryDeadline with
          | none => exact absurd hpd hne
          | some pd => exact (pgDeadlinePass_iff d _).mpr ⟨pd, rfl, h7 d hd pd hpd⟩
    · rintro ⟨h1, h2, h3, h4, h5, h6, h7⟩
      refine ⟨h1, h2, ?_, ?_, h5, h6, ?_⟩
      · intro a ha
        by_cases hae : a = ""
        · subst hae
          rw [lowerStr_empty]
          exact includesL_nil_left _
        · rw [← likeMatch_pct_wrap _ (hga a ha)]
          exact h3 a ha hae
      · intro c hc
        by_cases hce : c = ""
        · subst hce
          rw [lowerStr_empty]
          exact includesL_nil_left _
        · rw [← likeMatch_pct_wrap _ (hgc c hc)]
          exact h4 c hc hce
      · intro d hd pd hpd
        obtain ⟨pd', hpd', hle⟩ := (pgDeadlinePass_iff d _).mp (h7 d hd)
        rw [hpd] at hpd'
        rw [Option.some.inj hpd']
        exact hle

theorem storage_backends_agree_witness :
    (wTripC4 ∈ getTrips wStoreC4 wFiltC4 ↔ wTripC4 ∈ pgGetTrips wStoreC4 wFiltC4) ∧
    (wPackageC2 ∈ getPackages wStoreC2 wPkgFiltC6 ↔
      wPackageC2 ∈ pgGetPackages wStoreC2 wPkgFiltC6) :=
  ⟨(storage_backends_agree_on_filters wStoreC4 wFiltC4 wPkgFiltC6
      (by intro a ha; obtain rfl : a = "jfk" := (Option.some.inj ha).symm; decide)
      (fun c hc => Option.noConfusion hc)
      (fun a ha => Option.noConfusion ha)
      (fun c hc => Option.noConfusion hc)
      (Or.inl rfl)).1 wTripC4,
   (storage_backends_agree_on_filters wStoreC2 wFiltC4 wPkgFiltC6
      (by intro a ha; obtain rfl : a = "jfk" := (Option.some.inj ha).symm; decide)
      (fun c hc => Option.noConfusion hc)
      (fun a ha => Option.noConfusion ha)
      (fun c hc => Option.noConfusion hc)
      (Or.inl rfl)).2 wPackageC2⟩

end LuggageLink
